import Mathlib

/-!
Shallow embedding of `ai_summary_batch_service.py` (class `AISummaryBatchService`).

External collaborators (the HTTP stack, the readability extractor, the Gemini
provider, the PostgreSQL store) are modelled as oracle inputs; every piece of
control flow and data manipulation performed by the Python code itself is
translated directly.
-/

/-- Python `str.lower()` restricted to the characters that occur in our model
(ASCII case folding, which is what matters for the matched substrings). -/
def lowerStr (s : String) : String := String.mk (s.toList.map Char.toLower)

/-- SQL `TRIM(x)` in PostgreSQL: strips space characters (only) from both ends. -/
def sqlTrim (s : String) : String :=
  String.mk (((s.toList.dropWhile (· == ' ')).reverse.dropWhile (· == ' ')).reverse)

/-- Python slicing `s[:n]` on a string (by characters). -/
def pyTake (n : Nat) (s : String) : String := String.mk (s.toList.take n)

/-- Python `str.strip()` with no argument: strips whitespace from both ends. -/
def pyStrip (s : String) : String :=
  String.mk (((s.toList.dropWhile Char.isWhitespace).reverse.dropWhile Char.isWhitespace).reverse)

/-- Whether the first list is a prefix of the second (Boolean). -/
def listPrefixOf : List Char → List Char → Bool
  | [], _ => true
  | _ :: _, [] => false
  | a :: as, b :: bs => a == b && listPrefixOf as bs

/-- Whether `pat` occurs as a contiguous sublist (Python `pat in s`). -/
def listContainsSub (pat : List Char) : List Char → Bool
  | [] => listPrefixOf pat []
  | c :: rest => listPrefixOf pat (c :: rest) || listContainsSub pat rest

/-- Python `pat in s` for strings. -/
def strContainsSub (s pat : String) : Bool := listContainsSub pat.toList s.toList

/-- Character class `[\d.]` of the regex `retry in ([\d.]+)s`. -/
def digitsDot (c : Char) : Bool := c.isDigit || c == '.'

/-- Value of a list of decimal digit characters (most significant first). -/
def natOfDigits (cs : List Char) : Nat :=
  cs.foldl (fun acc c => acc * 10 + (c.toNat - 48)) 0

/-- Python `float(s)` for a string over `[0-9.]`: succeeds iff it contains at
least one digit and at most one dot ("5", "1.2", ".5", "5." succeed; ".",
"1.2.3" raise). The value is returned as an exact rational. -/
def parseFloat (cs : List Char) : Option ℚ :=
  if cs.all digitsDot && cs.any Char.isDigit && cs.count '.' ≤ 1 then
    let intPart := cs.takeWhile (· ≠ '.')
    let fracPart := cs.drop (intPart.length + 1)
    some ((natOfDigits intPart : ℚ) + (natOfDigits fracPart : ℚ) / (10 ^ fracPart.length : ℚ))
  else
    none

/-- Semantics of `re.search(r'retry in ([\d.]+)s', s)`: at the first position
where the literal "retry in " is followed by a nonempty maximal run of `[0-9.]`
characters whose next character is `s`, return that run (the capture group).
Backtracking inside `[\d.]+` cannot produce a shorter match, because every
proper prefix of the maximal run is followed by another `[0-9.]` character. -/
def scanRetry : List Char → Option (List Char)
  | [] => none
  | c :: rest =>
    if listPrefixOf "retry in ".toList (c :: rest) then
      let after := (c :: rest).drop 9
      let digits := after.takeWhile digitsDot
      if digits.length > 0 && ((after.drop digits.length).head? == some 's') then
        some digits
      else
        scanRetry rest
    else
      scanRetry rest

/-- Python `' '.join(s.split())`: collapse whitespace runs, dropping empties. -/
def normalizeWs (s : String) : String :=
  " ".intercalate ((s.split Char.isWhitespace).filter (· != ""))

/-- Rows of the `posts` table: `post_id, content, title, summary`. -/
structure Post where
  post_id : Nat
  content : Option String
  title : Option String
  summary : Option String
deriving Repr, DecidableEq

/-- One tuple of the initial `SELECT post_id, content, title` snapshot. -/
structure Row where
  post_id : Nat
  content : Option String
  title : Option String
deriving Repr, DecidableEq

/-- Outcome of one physical call to the Gemini provider, as seen by
`_gemini_summarize`'s `try` block: either `response.text` was produced, or an
exception with message `msg` was raised (by the call or by `.text`). -/
inductive GeminiResp where
  | ok (text : String)
  | err (msg : String)
deriving Repr, DecidableEq

/-- Whether a provider response is a success. -/
def GeminiResp.isOk : GeminiResp → Bool
  | .ok _ => true
  | .err _ => false

/-- Python truthiness check `if title:` and the f-string
`f"제목: {title}\n\n내용: {content}"` of `_gemini_summarize`. -/
def promptContent (content : String) (title : Option String) : String :=
  match title with
  | some t => if t ≠ "" then "제목: " ++ t ++ "\n\n내용: " ++ content else content
  | none => content

/-- Classification performed by `_gemini_summarize` (lines 96-147): given the
provider outcome for this call, return the `(summary, retry_delay)` pair.
  - success: `(response.text.strip(), None)`;
  - error text containing "429", or "quota" / "rate limit" case-insensitively:
    `(None, retry_delay)` where `retry_delay` is the number parsed from
    `retry in <n>s` in the lowered text plus one, else the default 60;
  - any other error: `(None, None)`.
The prompt construction does not influence this value; the provider outcome is
the oracle input. -/
def geminiSummarize (resp : GeminiResp) : Option String × Option ℚ :=
  match resp with
  | .ok text => (some (pyStrip text), none)
  | .err msg =>
    if strContainsSub msg "429" || strContainsSub (lowerStr msg) "quota"
        || strContainsSub (lowerStr msg) "rate limit" then
      let retry_delay : ℚ :=
        match scanRetry (lowerStr msg).toList with
        | some digits =>
          match parseFloat digits with
          | some q => q + 1
          | none => 60
        | none => 60
      (none, some retry_delay)
    else
      (none, none)

/-- Response object attached to a `requests.exceptions.HTTPError`. -/
structure HttpResponse where
  status_code : Nat
deriving Repr, DecidableEq

/-- Python truthiness of a `requests.Response`: `Response.__bool__` returns
`self.ok`, which is true iff `status_code < 400`. -/
def respTruthy (r : HttpResponse) : Bool := r.status_code < 400

/-- Outcome of the HTTP GET + readability + BeautifulSoup pipeline inside
`_fetch_url_content`'s `try` block, as an oracle:
  - `ok content`: the request succeeded and `soup.get_text(...)` returned `content`;
  - `httpError response`: `raise_for_status` (or the GET) raised an
    `HTTPError` carrying `response` (possibly `None`);
  - `exc msg`: any other exception. -/
inductive FetchResp where
  | ok (content : String)
  | httpError (response : Option HttpResponse)
  | exc (msg : String)
deriving Repr, DecidableEq

/-- Embedding of `_fetch_url_content` (lines 23-64): truncation to 10000
characters plus "...", and the exception classification. Note the 404 branch
tests `if e.response and e.response.status_code == 404`, and Python truthiness
of a response with status 404 is `False`. -/
def fetchUrlContent (resp : FetchResp) : Option String × Option Nat :=
  match resp with
  | .ok content0 =>
    if content0 != "" then
      let content1 := normalizeWs content0
      let content2 := if content1.length > 10000 then pyTake 10000 content1 ++ "..." else content1
      (some content2, none)
    else
      (none, none)
  | .httpError response =>
    match response with
    | some r => if respTruthy r && r.status_code == 404 then (none, some 404) else (none, none)
    | none => (none, none)
  | .exc _ => (none, none)

/-- Mutable state threaded through the `run()` loop. `db` is the committed
contents of the `posts` table; `calls` counts physical provider invocations;
`sleeps` records the `time.sleep` durations performed (seconds); `commits`
counts `conn.commit()` calls inside the loop. -/
structure LoopState where
  db : List Post
  calls : Nat
  sleeps : List Nat
  commits : Nat
  success_count : Nat
  fail_count : Nat
deriving Repr, DecidableEq

/-- Nondeterministic environment for one loop iteration: `extWrites` models
summary updates committed by concurrent external writers just before this
iteration (pairs of post id and new summary value); `recheckErr` (when `some`)
makes the per-record re-check `SELECT` raise with that message; `updateErr`
makes the `UPDATE`/`commit` raise. -/
structure RecordEnv where
  extWrites : List (Nat × Option String)
  recheckErr : Option String
  updateErr : Option String

/-- Environment of a whole run: `selectErr` (when `some`) makes the initial
selection query raise; `logSuccessErr` makes the end-of-run `_log_batch`
("SUCCESS") insert raise; `gemini` gives the provider outcome of the n-th
physical provider call; `recEnv` gives the per-iteration environment. -/
structure RunEnv where
  selectErr : Option String
  logSuccessErr : Option String
  gemini : Nat → GeminiResp
  recEnv : Nat → RecordEnv

/-- Apply externally committed summary writes to the table. -/
def applyExt (db : List Post) (ws : List (Nat × Option String)) : List Post :=
  ws.foldl (fun d w => d.map (fun p => if p.post_id = w.1 then { p with summary := w.2 } else p)) db

/-- The statement `UPDATE posts SET summary = %s WHERE post_id = %s`. -/
def updateSummary (db : List Post) (pid : Nat) (s : String) : List Post :=
  db.map (fun p => if p.post_id = pid then { p with summary := some s } else p)

/-- The re-check `SELECT summary FROM posts WHERE post_id = %s` followed by
`fetchone()`: `none` when no row matches, else the first matching row's
summary. -/
def recheckSummary (db : List Post) (pid : Nat) : Option (Option String) :=
  (db.find? (fun p => p.post_id == pid)).map (·.summary)

/-- Python `if not content or not content.strip():` on a snapshot column. -/
def pyBlank : Option String → Bool
  | none => true
  | some c => c == "" || pyStrip c == ""

/-- Result of one iteration of the `for` loop: either fall through to the
next candidate, or the early `return` of lines 208-211. -/
inductive StepOut where
  | nextRec (st : LoopState)
  | earlyExit (st : LoopState)
deriving Repr, DecidableEq

/-- Lines 216-230 plus the surrounding `except` (lines 232-238): with the
summary obtained (or not) after the retry logic, either count a failure, or
perform the single-row update keyed by `post_id`, commit, and count a
success; an exception from the update/commit is absorbed, rolled back
(the committed table is left unchanged) and counted as a failure. -/
def finishRecord (re : RecordEnv) (r : Row) (st : LoopState) (summary : Option String) : StepOut :=
  match summary with
  | none => .nextRec { st with fail_count := st.fail_count + 1 }
  | some s =>
    match re.updateErr with
    | some _ => .nextRec { st with fail_count := st.fail_count + 1 }
    | none => .nextRec { st with db := updateSummary st.db r.post_id s,
                                 commits := st.commits + 1,
                                 success_count := st.success_count + 1 }

/-- One iteration of the per-record loop (lines 182-238): blank-content skip,
eligibility re-check (skip when a summary now exists, absorb a raising
re-check as a counted failure), first provider call, on a retryable failure
one 120-second cooldown and exactly one retry, early exit when the retry is
again retryable, then `finishRecord`. -/
def processRecord (env : RunEnv) (idx : Nat) (r : Row) (st0 : LoopState) : StepOut :=
  let re := env.recEnv idx
  let st := { st0 with db := applyExt st0.db re.extWrites }
  if pyBlank r.content then
    .nextRec st
  else
    match re.recheckErr with
    | some _ => .nextRec { st with fail_count := st.fail_count + 1 }
    | none =>
      match recheckSummary st.db r.post_id with
      | some (some _) => .nextRec st
      | _ =>
        let g1 := geminiSummarize (env.gemini st.calls)
        let st1 := { st with calls := st.calls + 1 }
        if g1.1.isNone && g1.2.isSome then
          let st2 := { st1 with sleeps := st1.sleeps ++ [120] }
          let g2 := geminiSummarize (env.gemini st2.calls)
          let st3 := { st2 with calls := st2.calls + 1 }
          if g2.1.isNone && g2.2.isSome then
            .earlyExit st3
          else
            finishRecord re r st3 g2.1
        else
          finishRecord re r st1 g1.1

/-- The `for idx, (post_id, content, title) in enumerate(rows, 1):` loop.
Returns the final state and whether the early `return` fired (`true` means
the remaining candidates were left unprocessed). The model's iteration index
is 0-based. -/
def runLoop (env : RunEnv) : List Row → Nat → LoopState → LoopState × Bool
  | [], _, st => (st, false)
  | r :: rs, idx, st =>
    match processRecord env idx r st with
    | .nextRec st' => runLoop env rs (idx + 1) st'
    | .earlyExit st' => (st', true)

/-- The `WHERE` clause of the selection query:
`summary IS NULL AND content IS NOT NULL AND content != '' AND TRIM(content) != ''`. -/
def sqlEligible (p : Post) : Bool :=
  p.summary.isNone &&
  match p.content with
  | none => false
  | some c => c != "" && sqlTrim c != ""

/-- Insertion into a list sorted by ascending `post_id`. -/
def insertById (p : Post) : List Post → List Post
  | [] => [p]
  | q :: qs => if p.post_id ≤ q.post_id then p :: q :: qs else q :: insertById p qs

/-- The `ORDER BY post_id ASC` of the selection query. -/
def sortById (l : List Post) : List Post := l.foldr insertById []

/-- Projection of a selected post onto the fetched columns. -/
def toRow (p : Post) : Row := ⟨p.post_id, p.content, p.title⟩

/-- The selection query of lines 159-170: eligible posts, ordered by id,
projected onto `(post_id, content, title)`. -/
def selectRows (db : List Post) : List Row :=
  (sortById (db.filter sqlEligible)).map toRow

/-- One row of the `batch_logs` table as written by `_log_batch`: the `detail`
JSON payload is represented by its three fields. -/
structure BatchLog where
  job_type : String
  log_level : String
  status : String
  affected_count : Nat
  detail_success_count : Nat
  detail_fail_count : Nat
  detail_total_count : Nat
  error_message : Option String
deriving Repr, DecidableEq

/-- Embedding of `_log_batch` (lines 255-278): append one audit row;
`log_level` is "ERROR" for a FAILED status and "INFO" otherwise, and
`affected_count` is the `success_count` argument. -/
def logBatch (logs : List BatchLog) (status : String) (success_count fail_count total_count : Nat)
    (error_message : Option String) : List BatchLog :=
  logs ++ [{ job_type := "AI_SUMMARY",
             log_level := if status = "FAILED" then "ERROR" else "INFO",
             status := status,
             affected_count := success_count,
             detail_success_count := success_count,
             detail_fail_count := fail_count,
             detail_total_count := total_count,
             error_message := error_message }]

/-- Persistent state touched by a run: the `posts` table and the `batch_logs`
audit table. -/
structure RunState where
  db : List Post
  logs : List BatchLog
deriving Repr, DecidableEq

/-- How `run()` returned: `emptyRun` is the `return` of line 175 (no audit
row); `finished st early` is a normal return carrying the final loop state
and whether the sustained-quota early `return` of line 211 fired; `failed msg`
means the exception `msg` propagated to the caller (line 250). -/
inductive RunOut where
  | emptyRun
  | finished (st : LoopState) (early : Bool)
  | failed (msg : String)
deriving Repr, DecidableEq

/-- Loop state at entry of the per-record loop. -/
def initLoopState (db : List Post) : LoopState :=
  { db := db, calls := 0, sleeps := [], commits := 0, success_count := 0, fail_count := 0 }

/-- Embedding of `run()` (lines 149-253). Faults are injected by `env`: a
raising selection query, per-record re-check/update faults (absorbed by the
per-record `except`), and a raising end-of-run SUCCESS audit insert; in the
latter two raising cases the outer `except` writes one FAILED audit row with
zero counts and the truncated message, then re-raises. The audit insert on
the FAILED path itself is modelled as succeeding. -/
def run (env : RunEnv) (db0 : List Post) (logs0 : List BatchLog) : RunState × RunOut :=
  match env.selectErr with
  | some m =>
    ({ db := db0, logs := logBatch logs0 "FAILED" 0 0 0 (some (pyTake 1000 m)) }, .failed m)
  | none =>
    let rows := selectRows db0
    if rows.length = 0 then
      ({ db := db0, logs := logs0 }, .emptyRun)
    else
      let res := runLoop env rows 0 (initLoopState db0)
      if res.2 then
        ({ db := res.1.db, logs := logs0 }, .finished res.1 true)
      else
        match env.logSuccessErr with
        | some m =>
          ({ db := res.1.db, logs := logBatch logs0 "FAILED" 0 0 0 (some (pyTake 1000 m)) },
           .failed m)
        | none =>
          ({ db := res.1.db,
             logs := logBatch logs0 "SUCCESS" res.1.success_count res.1.fail_count rows.length none },
           .finished res.1 false)

/-- Environment with no injected faults and no concurrent writers: the
provider outcomes are the only external behavior. -/
def honestEnv (g : Nat → GeminiResp) : RunEnv :=
  { selectErr := none, logSuccessErr := none, gemini := g,
    recEnv := fun _ => { extWrites := [], recheckErr := none, updateErr := none } }

/-! ### Branch characterizations of one loop iteration -/

/-- Blank-content double check: skip, nothing counted, no provider call. -/
theorem processRecord_blank (env : RunEnv) (idx : Nat) (r : Row) (st0 : LoopState)
    (h : pyBlank r.content = true) :
    processRecord env idx r st0 =
      .nextRec { st0 with db := applyExt st0.db (env.recEnv idx).extWrites } := by
  simp [processRecord, h]

/-- Raising re-check query: the per-record `except` absorbs it as one failure. -/
theorem processRecord_recheckErr (env : RunEnv) (idx : Nat) (r : Row) (st0 : LoopState)
    (e : String) (h1 : pyBlank r.content = false) (h2 : (env.recEnv idx).recheckErr = some e) :
    processRecord env idx r st0 =
      .nextRec { st0 with db := applyExt st0.db (env.recEnv idx).extWrites,
                          fail_count := st0.fail_count + 1 } := by
  simp [processRecord, h1, h2]

/-- Re-check sees an existing summary: skip, nothing counted, no provider call. -/
theorem processRecord_skip (env : RunEnv) (idx : Nat) (r : Row) (st0 : LoopState) (s : String)
    (h1 : pyBlank r.content = false) (h2 : (env.recEnv idx).recheckErr = none)
    (h3 : recheckSummary (applyExt st0.db (env.recEnv idx).extWrites) r.post_id = some (some s)) :
    processRecord env idx r st0 =
      .nextRec { st0 with db := applyExt st0.db (env.recEnv idx).extWrites } := by
  simp [processRecord, h1, h2, h3]

/-- Hypothesis shape for reaching the provider call: the re-check found no
existing summary (no row, or a row with a NULL summary). -/
def recheckClear (db : List Post) (pid : Nat) : Prop :=
  recheckSummary db pid = none ∨ recheckSummary db pid = some none

/-- First provider call fails non-retryably: one failure, no cooldown, no
retry, no write. -/
theorem processRecord_nonretry_fail (env : RunEnv) (idx : Nat) (r : Row) (st0 : LoopState)
    (h1 : pyBlank r.content = false) (h2 : (env.recEnv idx).recheckErr = none)
    (h3 : recheckClear (applyExt st0.db (env.recEnv idx).extWrites) r.post_id)
    (h4 : geminiSummarize (env.gemini st0.calls) = (none, none)) :
    processRecord env idx r st0 =
      .nextRec { st0 with db := applyExt st0.db (env.recEnv idx).extWrites,
                          calls := st0.calls + 1,
                          fail_count := st0.fail_count + 1 } := by
  rcases h3 with h3 | h3 <;> simp [processRecord, finishRecord, h1, h2, h3, h4]

/-- First provider call succeeds and the update commits: summary persisted by
the single-row update keyed by `post_id`, one commit, one success. -/
theorem processRecord_first_ok (env : RunEnv) (idx : Nat) (r : Row) (st0 : LoopState)
    (s : String) (d : Option ℚ)
    (h1 : pyBlank r.content = false) (h2 : (env.recEnv idx).recheckErr = none)
    (h3 : recheckClear (applyExt st0.db (env.recEnv idx).extWrites) r.post_id)
    (h4 : geminiSummarize (env.gemini st0.calls) = (some s, d))
    (h5 : (env.recEnv idx).updateErr = none) :
    processRecord env idx r st0 =
      .nextRec { st0 with db := updateSummary (applyExt st0.db (env.recEnv idx).extWrites)
                                  r.post_id s,
                          calls := st0.calls + 1,
                          commits := st0.commits + 1,
                          success_count := st0.success_count + 1 } := by
  rcases h3 with h3 | h3 <;> simp [processRecord, finishRecord, h1, h2, h3, h4, h5]

/-- First call retryable, retry also retryable: one 120s cooldown, exactly one
retry, then the early `return`; counters and the table are untouched. -/
theorem processRecord_sustained_quota (env : RunEnv) (idx : Nat) (r : Row) (st0 : LoopState)
    (h1 : pyBlank r.content = false) (h2 : (env.recEnv idx).recheckErr = none)
    (h3 : recheckClear (applyExt st0.db (env.recEnv idx).extWrites) r.post_id)
    (h4 : (geminiSummarize (env.gemini st0.calls)).1 = none)
    (h5 : (geminiSummarize (env.gemini st0.calls)).2.isSome = true)
    (h6 : (geminiSummarize (env.gemini (st0.calls + 1))).1 = none)
    (h7 : (geminiSummarize (env.gemini (st0.calls + 1))).2.isSome = true) :
    processRecord env idx r st0 =
      .earlyExit { st0 with db := applyExt st0.db (env.recEnv idx).extWrites,
                            calls := st0.calls + 2,
                            sleeps := st0.sleeps ++ [120] } := by
  rcases h3 with h3 | h3 <;>
    simp [processRecord, finishRecord, h1, h2, h3, h4, h5, h6, h7]

/-- First call retryable, retry succeeds, update commits: summary persisted,
one commit, one success, one cooldown. -/
theorem processRecord_retry_ok (env : RunEnv) (idx : Nat) (r : Row) (st0 : LoopState)
    (s : String) (d : Option ℚ)
    (h1 : pyBlank r.content = false) (h2 : (env.recEnv idx).recheckErr = none)
    (h3 : recheckClear (applyExt st0.db (env.recEnv idx).extWrites) r.post_id)
    (h4 : (geminiSummarize (env.gemini st0.calls)).1 = none)
    (h5 : (geminiSummarize (env.gemini st0.calls)).2.isSome = true)
    (h6 : geminiSummarize (env.gemini (st0.calls + 1)) = (some s, d))
    (h7 : (env.recEnv idx).updateErr = none) :
    processRecord env idx r st0 =
      .nextRec { st0 with db := updateSummary (applyExt st0.db (env.recEnv idx).extWrites)
                                  r.post_id s,
                          calls := st0.calls + 2,
                          sleeps := st0.sleeps ++ [120],
                          commits := st0.commits + 1,
                          success_count := st0.success_count + 1 } := by
  rcases h3 with h3 | h3 <;>
    simp [processRecord, finishRecord, h1, h2, h3, h4, h5, h6, h7]

/-- Raising update/commit after a summary was obtained on the first call: the
record's transaction is rolled back (the committed table is unchanged), one
failure, loop continues. -/
theorem processRecord_updateErr (env : RunEnv) (idx : Nat) (r : Row) (st0 : LoopState)
    (s : String) (d : Option ℚ) (e : String)
    (h1 : pyBlank r.content = false) (h2 : (env.recEnv idx).recheckErr = none)
    (h3 : recheckClear (applyExt st0.db (env.recEnv idx).extWrites) r.post_id)
    (h4 : geminiSummarize (env.gemini st0.calls) = (some s, d))
    (h5 : (env.recEnv idx).updateErr = some e) :
    processRecord env idx r st0 =
      .nextRec { st0 with db := applyExt st0.db (env.recEnv idx).extWrites,
                          calls := st0.calls + 1,
                          fail_count := st0.fail_count + 1 } := by
  rcases h3 with h3 | h3 <;> simp [processRecord, finishRecord, h1, h2, h3, h4, h5]

/-- State carried by either constructor of `StepOut`. -/
def StepOut.state : StepOut → LoopState
  | .nextRec st => st
  | .earlyExit st => st

theorem runLoop_nil (env : RunEnv) (idx : Nat) (st : LoopState) :
    runLoop env [] idx st = (st, false) := rfl

theorem runLoop_cons_next (env : RunEnv) (r : Row) (rs : List Row) (idx : Nat)
    (st st' : LoopState) (h : processRecord env idx r st = .nextRec st') :
    runLoop env (r :: rs) idx st = runLoop env rs (idx + 1) st' := by
  simp [runLoop, h]

theorem runLoop_cons_early (env : RunEnv) (r : Row) (rs : List Row) (idx : Nat)
    (st st' : LoopState) (h : processRecord env idx r st = .earlyExit st') :
    runLoop env (r :: rs) idx st = (st', true) := by
  simp [runLoop, h]

/-- One iteration increases `success_count + fail_count` by at most one. -/
theorem processRecord_counter_le (env : RunEnv) (idx : Nat) (r : Row) (st0 : LoopState) :
    (processRecord env idx r st0).state.success_count
      + (processRecord env idx r st0).state.fail_count
      ≤ st0.success_count + st0.fail_count + 1 := by
  simp only [processRecord, finishRecord]
  repeat' split
  all_goals simp [StepOut.state]
  all_goals omega

/-- Over any suffix of the candidate list, the counters grow by at most the
number of candidates. -/
theorem runLoop_counter_le (env : RunEnv) :
    ∀ (rows : List Row) (idx : Nat) (st : LoopState),
      (runLoop env rows idx st).1.success_count + (runLoop env rows idx st).1.fail_count
        ≤ st.success_count + st.fail_count + rows.length := by
  intro rows
  induction rows with
  | nil => intro idx st; simp [runLoop]
  | cons r rs ih =>
    intro idx st
    have hb := processRecord_counter_le env idx r st
    cases hpr : processRecord env idx r st with
    | nextRec st' =>
      rw [runLoop_cons_next env r rs idx st st' hpr]
      rw [hpr] at hb
      have := ih (idx + 1) st'
      simp [StepOut.state] at hb
      simp only [List.length_cons]
      omega
    | earlyExit st' =>
      rw [runLoop_cons_early env r rs idx st st' hpr]
      rw [hpr] at hb
      simp [StepOut.state] at hb
      simp only [List.length_cons]
      omega

/-- Inversion: a `finished` outcome carries exactly the final loop state. -/
theorem run_finished_inv (env : RunEnv) (db : List Post) (logs0 : List BatchLog)
    (st : LoopState) (early : Bool) (h : (run env db logs0).2 = .finished st early) :
    st = (runLoop env (selectRows db) 0 (initLoopState db)).1 := by
  unfold run at h
  split at h
  · simp at h
  · simp only at h
    split at h
    · simp at h
    · split at h
      · simp only [RunOut.finished.injEq] at h
        exact h.1.symm ▸ rfl
      · split at h
        · simp at h
        · simp only [RunOut.finished.injEq] at h
          exact h.1.symm ▸ rfl

/-- The empty-candidate `return` of line 175 writes no audit row and leaves
the table untouched. -/
theorem run_empty_state (env : RunEnv) (db : List Post) (logs0 : List BatchLog)
    (h : (run env db logs0).2 = .emptyRun) :
    (run env db logs0).1 = { db := db, logs := logs0 } := by
  unfold run at h ⊢
  split at h <;> simp_all
  split at h <;> simp_all
  split at h
  · simp_all
  · split at h <;> simp_all

/-- The sustained-quota early `return` of line 211 writes no audit row. -/
theorem run_early_logs (env : RunEnv) (db : List Post) (logs0 : List BatchLog)
    (st : LoopState) (h : (run env db logs0).2 = .finished st true) :
    (run env db logs0).1.logs = logs0 := by
  unfold run at h ⊢
  split at h <;> simp_all
  split at h <;> simp_all
  split at h
  · simp_all
  · split at h <;> simp_all

/-- The normal-completion path writes exactly one SUCCESS audit row with the
final counters and the candidate total. -/
theorem run_success_logs (env : RunEnv) (db : List Post) (logs0 : List BatchLog)
    (st : LoopState) (h : (run env db logs0).2 = .finished st false) :
    (run env db logs0).1.logs =
      logBatch logs0 "SUCCESS" st.success_count st.fail_count (selectRows db).length none := by
  unfold run at h ⊢
  split at h <;> simp_all
  split at h <;> simp_all
  split at h
  · simp_all
  · split at h <;> simp_all

/-- A propagated exception is always preceded by exactly one FAILED audit row
with zero counts and the message truncated to 1000 characters. -/
theorem run_failed_logs (env : RunEnv) (db : List Post) (logs0 : List BatchLog)
    (m : String) (h : (run env db logs0).2 = .failed m) :
    (run env db logs0).1.logs = logBatch logs0 "FAILED" 0 0 0 (some (pyTake 1000 m)) := by
  unfold run at h ⊢
  split at h <;> simp_all
  split at h <;> simp_all
  split at h
  · simp_all
  · split at h <;> simp_all

/-- Without a selection fault and without an audit-insert fault, `run()` never
raises: every fault injected inside the per-record loop is absorbed. -/
theorem run_noFault_not_failed (env : RunEnv) (db : List Post) (logs0 : List BatchLog)
    (hsel : env.selectErr = none) (hlog : env.logSuccessErr = none) (m : String) :
    (run env db logs0).2 ≠ .failed m := by
  unfold run
  rw [hsel]
  simp only
  split
  · simp
  · split
    · simp
    · rw [hlog]; simp

/-- Conversely, a raised exception comes from the selection query or from the
SUCCESS audit insert. -/
theorem run_failed_source (env : RunEnv) (db : List Post) (logs0 : List BatchLog)
    (m : String) (h : (run env db logs0).2 = .failed m) :
    env.selectErr = some m ∨ (env.selectErr = none ∧ env.logSuccessErr = some m) := by
  cases hsel : env.selectErr with
  | some e =>
    left
    unfold run at h
    rw [hsel] at h
    simp only [RunOut.failed.injEq] at h
    rw [h]
  | none =>
    right
    refine ⟨rfl, ?_⟩
    cases hlog : env.logSuccessErr with
    | some e =>
      unfold run at h
      rw [hsel] at h
      simp only at h
      split at h
      · simp at h
      · split at h
        · simp at h
        · rw [hlog] at h
          simp only [RunOut.failed.injEq] at h
          rw [h]
    | none => exact absurd h (run_noFault_not_failed env db logs0 hsel hlog m)

/-! ### Concrete fixtures used by witnesses and counterexamples -/

/-- Provider that always succeeds with a fixed summary. -/
def gAlwaysOk : Nat → GeminiResp := fun _ => .ok "S"

/-- Provider that always signals a quota failure. -/
def gAlways429 : Nat → GeminiResp := fun _ => .err "429"

/-- Three eligible posts. -/
def dbThree : List Post :=
  [⟨1, some "alpha", some "t1", none⟩, ⟨2, some "beta", none, none⟩, ⟨3, some "gamma", none, none⟩]

/-- One eligible post. -/
def dbOne : List Post := [⟨1, some "hello", none, none⟩]

/-! ### C9 -/

/-- C9: the content fetch is claimed to return the distinguished `(none, 404)`
result when the HTTP request fails with status 404. In the code the branch
`if e.response and e.response.status_code == 404` is dead: Python truthiness
of a `requests.Response` is `status_code < 400`, so a 404 response is falsy
and every `HTTPError` — the 404 case included — yields the generic failure
`(none, none)`, contradicting the function's own docstring. -/
theorem fetch_404_branch_dead :
    fetchUrlContent (.httpError (some ⟨404⟩)) = (none, none)
      ∧ ∀ r : Option HttpResponse, fetchUrlContent (.httpError r) = (none, none) := by
  refine ⟨by decide, ?_⟩
  intro r
  cases r with
  | none => rfl
  | some r =>
    rcases r with ⟨c⟩
    simp only [fetchUrlContent, respTruthy]
    split
    · next hb =>
      simp only [Bool.and_eq_true, decide_eq_true_eq, beq_iff_eq] at hb
      omega
    · rfl

/-! ### C10 -/

/-- C10: whenever `run()` ends on the failure path, the FAILED audit row
records zero success, fail, total and affected counts, whatever per-record
progress was committed before the exception. -/
theorem failed_row_zero_counts (env : RunEnv) (db : List Post) (logs0 : List BatchLog)
    (m : String) (h : (run env db logs0).2 = .failed m) :
    (run env db logs0).1.logs =
      logs0 ++ [{ job_type := "AI_SUMMARY", log_level := "ERROR", status := "FAILED",
                  affected_count := 0, detail_success_count := 0, detail_fail_count := 0,
                  detail_total_count := 0, error_message := some (pyTake 1000 m) }] := by
  have hl := run_failed_logs env db logs0 m h
  simpa [logBatch] using hl

/-- Environment in which three records are successfully committed and then the
SUCCESS audit insert raises. -/
def envLogFault : RunEnv := { honestEnv gAlwaysOk with logSuccessErr := some "log db down" }

theorem failed_row_zero_counts_witness :
    (run envLogFault dbThree []).1.logs =
      [] ++ [{ job_type := "AI_SUMMARY", log_level := "ERROR", status := "FAILED",
               affected_count := 0, detail_success_count := 0, detail_fail_count := 0,
               detail_total_count := 0, error_message := some (pyTake 1000 "log db down") }] :=
  failed_row_zero_counts envLogFault dbThree [] "log db down" (by decide)

/-! ### C3 -/

/-- C3: at run end `success_count + fail_count ≤ total_count` where
`total_count` is the number of selected candidates, and a single iteration
increases the two counters together by at most one (so a record is counted in
at most one of them, and skips count in neither). -/
theorem counters_bounded_by_total :
    (∀ (env : RunEnv) (db : List Post) (logs0 : List BatchLog) (st : LoopState) (early : Bool),
        (run env db logs0).2 = .finished st early →
          st.success_count + st.fail_count ≤ (selectRows db).length)
  ∧ (∀ (env : RunEnv) (idx : Nat) (r : Row) (st0 : LoopState),
        (processRecord env idx r st0).state.success_count
          + (processRecord env idx r st0).state.fail_count
          ≤ st0.success_count + st0.fail_count + 1) := by
  constructor
  · intro env db logs0 st early h
    have hst := run_finished_inv env db logs0 st early h
    have hb := runLoop_counter_le env (selectRows db) 0 (initLoopState db)
    rw [hst]
    simpa [initLoopState] using hb
  · exact processRecord_counter_le

/-- Provider failing non-retryably on the first record only. -/
def gFirstFails : Nat → GeminiResp := fun n => if n = 0 then .err "boom" else .ok "S"

theorem counters_bounded_by_total_witness :
    (⟨dbThree.map (fun p => if p.post_id = 1 then p else { p with summary := some "S" }),
       3, [], 2, 2, 1⟩ : LoopState).success_count
      + (⟨dbThree.map (fun p => if p.post_id = 1 then p else { p with summary := some "S" }),
           3, [], 2, 2, 1⟩ : LoopState).fail_count
      ≤ (selectRows dbThree).length :=
  counters_bounded_by_total.1 (honestEnv gFirstFails) dbThree []
    ⟨dbThree.map (fun p => if p.post_id = 1 then p else { p with summary := some "S" }),
      3, [], 2, 2, 1⟩ false (by decide)

/-! ### C7 -/

/-- C7: a record whose first attempt is retryable and whose single retry
succeeds is persisted by the single-row update keyed by `post_id`, committed
immediately (exactly one more commit), counted as exactly one success, and
the loop continues with the remaining candidates. -/
theorem retryable_then_success_commits (env : RunEnv) (idx : Nat) (r : Row) (rest : List Row)
    (st0 : LoopState) (s : String) (d : Option ℚ)
    (h1 : pyBlank r.content = false) (h2 : (env.recEnv idx).recheckErr = none)
    (h3 : recheckClear (applyExt st0.db (env.recEnv idx).extWrites) r.post_id)
    (h4 : (geminiSummarize (env.gemini st0.calls)).1 = none)
    (h5 : (geminiSummarize (env.gemini st0.calls)).2.isSome = true)
    (h6 : geminiSummarize (env.gemini (st0.calls + 1)) = (some s, d))
    (h7 : (env.recEnv idx).updateErr = none) :
    runLoop env (r :: rest) idx st0 =
      runLoop env rest (idx + 1)
        { st0 with db := updateSummary (applyExt st0.db (env.recEnv idx).extWrites) r.post_id s,
                   calls := st0.calls + 2,
                   sleeps := st0.sleeps ++ [120],
                   commits := st0.commits + 1,
                   success_count := st0.success_count + 1 } :=
  runLoop_cons_next env r rest idx st0 _
    (processRecord_retry_ok env idx r st0 s d h1 h2 h3 h4 h5 h6 h7)

/-- Provider that is retryable on the first call and succeeds from then on. -/
def gRetryThenOk : Nat → GeminiResp := fun n => if n = 0 then .err "429" else .ok "S"

theorem retryable_then_success_commits_witness :
    runLoop (honestEnv gRetryThenOk) [⟨1, some "hello", none⟩] 0 (initLoopState dbOne) =
      runLoop (honestEnv gRetryThenOk) [] 1
        { initLoopState dbOne with
            db := updateSummary
                    (applyExt (initLoopState dbOne).db
                      (((honestEnv gRetryThenOk).recEnv 0).extWrites)) 1 "S",
            calls := 2, sleeps := [120], commits := 1, success_count := 1 } :=
  retryable_then_success_commits (honestEnv gRetryThenOk) 0 ⟨1, some "hello", none⟩ []
    (initLoopState dbOne) "S" none (by decide) rfl (Or.inr (by decide)) (by decide) (by decide)
    (by decide) rfl

/-! ### C8 -/

/-- C8: a record whose first attempt fails non-retryably gets no cooldown and
no retry (exactly one provider call, no sleep), is counted as exactly one
failure, its summary is left unwritten by the job, and the loop continues
with the next candidate. -/
theorem nonretryable_counted_no_retry (env : RunEnv) (idx : Nat) (r : Row) (rest : List Row)
    (st0 : LoopState)
    (h1 : pyBlank r.content = false) (h2 : (env.recEnv idx).recheckErr = none)
    (h3 : recheckClear (applyExt st0.db (env.recEnv idx).extWrites) r.post_id)
    (h4 : geminiSummarize (env.gemini st0.calls) = (none, none)) :
    runLoop env (r :: rest) idx st0 =
      runLoop env rest (idx + 1)
        { st0 with db := applyExt st0.db (env.recEnv idx).extWrites,
                   calls := st0.calls + 1,
                   fail_count := st0.fail_count + 1 } :=
  runLoop_cons_next env r rest idx st0 _
    (processRecord_nonretry_fail env idx r st0 h1 h2 h3 h4)

/-- Provider that always fails non-retryably. -/
def gAlwaysBoom : Nat → GeminiResp := fun _ => .err "boom"

theorem nonretryable_counted_no_retry_witness :
    runLoop (honestEnv gAlwaysBoom) [⟨1, some "hello", none⟩] 0 (initLoopState dbOne) =
      runLoop (honestEnv gAlwaysBoom) [] 1
        { initLoopState dbOne with
            db := applyExt (initLoopState dbOne).db (((honestEnv gAlwaysBoom).recEnv 0).extWrites),
            calls := 1, fail_count := 1 } :=
  nonretryable_counted_no_retry (honestEnv gAlwaysBoom) 0 ⟨1, some "hello", none⟩ []
    (initLoopState dbOne) (by decide) rfl (Or.inr (by decide)) (by decide)

/-! ### C2 -/

/-- C2: when both the first attempt and the single retry after the fixed
120-second cooldown are retryable, the iteration performs exactly two
provider calls and one 120s sleep, increments neither counter, writes no
summary, discards all remaining candidates, and `run()` then returns this
state as a normal (non-raising) completion. -/
theorem sustained_quota_early_exit :
    (∀ (env : RunEnv) (idx : Nat) (r : Row) (rest : List Row) (st0 : LoopState),
        pyBlank r.content = false → (env.recEnv idx).recheckErr = none →
        recheckClear (applyExt st0.db (env.recEnv idx).extWrites) r.post_id →
        (geminiSummarize (env.gemini st0.calls)).1 = none →
        (geminiSummarize (env.gemini st0.calls)).2.isSome = true →
        (geminiSummarize (env.gemini (st0.calls + 1))).1 = none →
        (geminiSummarize (env.gemini (st0.calls + 1))).2.isSome = true →
        runLoop env (r :: rest) idx st0 =
          ({ st0 with db := applyExt st0.db (env.recEnv idx).extWrites,
                      calls := st0.calls + 2,
                      sleeps := st0.sleeps ++ [120] }, true))
  ∧ (∀ (env : RunEnv) (db : List Post) (logs0 : List BatchLog),
        env.selectErr = none →
        (runLoop env (selectRows db) 0 (initLoopState db)).2 = true →
        (run env db logs0).2 =
          .finished (runLoop env (selectRows db) 0 (initLoopState db)).1 true) := by
  constructor
  · intro env idx r rest st0 h1 h2 h3 h4 h5 h6 h7
    exact runLoop_cons_early env r rest idx st0 _
      (processRecord_sustained_quota env idx r st0 h1 h2 h3 h4 h5 h6 h7)
  · intro env db logs0 hsel hearly
    unfold run
    rw [hsel]
    simp only [hearly, if_true]
    split
    · next hlen =>
      rw [List.length_eq_zero] at hlen
      rw [hlen, runLoop_nil] at hearly
      simp at hearly
    · rfl

theorem sustained_quota_early_exit_witness :
    runLoop (honestEnv gAlways429) [⟨1, some "hello", none⟩] 0 (initLoopState dbOne) =
      ({ initLoopState dbOne with
           db := applyExt (initLoopState dbOne).db (((honestEnv gAlways429).recEnv 0).extWrites),
           calls := 2,
           sleeps := [] ++ [120] }, true) :=
  sustained_quota_early_exit.1 (honestEnv gAlways429) 0 ⟨1, some "hello", none⟩ []
    (initLoopState dbOne) (by decide) rfl (Or.inr (by decide)) (by decide) (by decide)
    (by decide) (by decide)

/-! ### C1 -/

/-- C1 counterexample: with one eligible candidate and a provider that always
signals quota exhaustion, the sustained-quota early exit triggers and the run
ends with an empty audit table — no SUCCESS RunOutcome row is written; the
same happens on an empty candidate set. The claim asserts a SUCCESS row in
both situations. -/
theorem run_logger_claim_counterexample :
    (run (honestEnv gAlways429) dbOne []).1.logs = []
      ∧ (run (honestEnv gAlways429) dbOne []).2 = .finished ⟨dbOne, 2, [120], 0, 0, 0⟩ true
      ∧ (run (honestEnv gAlwaysOk) [] []).1.logs = []
      ∧ (run (honestEnv gAlwaysOk) [] []).2 = .emptyRun := by
  refine ⟨by decide, by decide, by decide, by decide⟩

/-- C1 amended: exactly one RunOutcome row is written on the normal-completion
path (status SUCCESS, with the final counters and the candidate total) and on
the failure path (status FAILED, truncated message); the empty-candidate-set
path and the sustained-quota early-exit path return without writing any
RunOutcome row. -/
theorem run_logger_paths (env : RunEnv) (db : List Post) (logs0 : List BatchLog) :
    ((run env db logs0).2 = .emptyRun → (run env db logs0).1.logs = logs0)
  ∧ (∀ st : LoopState, (run env db logs0).2 = .finished st true →
      (run env db logs0).1.logs = logs0)
  ∧ (∀ st : LoopState, (run env db logs0).2 = .finished st false →
      (run env db logs0).1.logs =
        logs0 ++ [{ job_type := "AI_SUMMARY", log_level := "INFO", status := "SUCCESS",
                    affected_count := st.success_count,
                    detail_success_count := st.success_count,
                    detail_fail_count := st.fail_count,
                    detail_total_count := (selectRows db).length,
                    error_message := none }])
  ∧ (∀ m : String, (run env db logs0).2 = .failed m →
      (run env db logs0).1.logs =
        logs0 ++ [{ job_type := "AI_SUMMARY", log_level := "ERROR", status := "FAILED",
                    affected_count := 0, detail_success_count := 0, detail_fail_count := 0,
                    detail_total_count := 0, error_message := some (pyTake 1000 m) }]) := by
  refine ⟨?_, ?_, ?_, ?_⟩
  · intro h
    exact congrArg RunState.logs (run_empty_state env db logs0 h)
  · intro st h
    exact run_early_logs env db logs0 st h
  · intro st h
    simpa [logBatch] using run_success_logs env db logs0 st h
  · intro m h
    simpa [logBatch] using run_failed_logs env db logs0 m h

theorem run_logger_paths_witness :
    (run (honestEnv gAlwaysOk) dbOne []).1.logs =
      [] ++ [{ job_type := "AI_SUMMARY", log_level := "INFO", status := "SUCCESS",
               affected_count := 1, detail_success_count := 1, detail_fail_count := 0,
               detail_total_count := (selectRows dbOne).length, error_message := none }] :=
  (run_logger_paths (honestEnv gAlwaysOk) dbOne []).2.2.1
    ⟨[⟨1, some "hello", none, some "S"⟩], 1, [], 1, 1, 0⟩ (by decide)

/-! ### C4 -/

/-- C4: every fault injected while processing one record is absorbed — the
record's transaction is rolled back (committed table unchanged), `fail_count`
is incremented, the loop continues — and `run()` only raises for a fault
outside the per-record loop, in which case one FAILED RunOutcome row with the
truncated message has been written first. -/
theorem per_record_errors_absorbed :
    (∀ (env : RunEnv) (db : List Post) (logs0 : List BatchLog) (m : String),
        (run env db logs0).2 = .failed m →
          (run env db logs0).1.logs =
            logs0 ++ [{ job_type := "AI_SUMMARY", log_level := "ERROR", status := "FAILED",
                        affected_count := 0, detail_success_count := 0, detail_fail_count := 0,
                        detail_total_count := 0, error_message := some (pyTake 1000 m) }]
          ∧ (env.selectErr = some m ∨ (env.selectErr = none ∧ env.logSuccessErr = some m)))
  ∧ (∀ (env : RunEnv) (db : List Post) (logs0 : List BatchLog),
        env.selectErr = none → env.logSuccessErr = none →
        ∀ m : String, (run env db logs0).2 ≠ .failed m)
  ∧ (∀ (env : RunEnv) (idx : Nat) (r : Row) (st0 : LoopState) (e : String),
        pyBlank r.content = false → (env.recEnv idx).recheckErr = some e →
        processRecord env idx r st0 =
          .nextRec { st0 with db := applyExt st0.db (env.recEnv idx).extWrites,
                              fail_count := st0.fail_count + 1 })
  ∧ (∀ (env : RunEnv) (idx : Nat) (r : Row) (st0 : LoopState) (s : String) (d : Option ℚ)
        (e : String),
        pyBlank r.content = false → (env.recEnv idx).recheckErr = none →
        recheckClear (applyExt st0.db (env.recEnv idx).extWrites) r.post_id →
        geminiSummarize (env.gemini st0.calls) = (some s, d) →
        (env.recEnv idx).updateErr = some e →
        processRecord env idx r st0 =
          .nextRec { st0 with db := applyExt st0.db (env.recEnv idx).extWrites,
                              calls := st0.calls + 1,
                              fail_count := st0.fail_count + 1 }) := by
  refine ⟨?_, run_noFault_not_failed, processRecord_recheckErr, processRecord_updateErr⟩
  intro env db logs0 m h
  exact ⟨by simpa [logBatch] using run_failed_logs env db logs0 m h,
         run_failed_source env db logs0 m h⟩

/-- Environment whose selection query raises. -/
def envSelFault : RunEnv := { honestEnv gAlwaysOk with selectErr := some "select failed" }

theorem per_record_errors_absorbed_witness :
    (run envSelFault dbOne []).1.logs =
      [] ++ [{ job_type := "AI_SUMMARY", log_level := "ERROR", status := "FAILED",
               affected_count := 0, detail_success_count := 0, detail_fail_count := 0,
               detail_total_count := 0, error_message := some (pyTake 1000 "select failed") }]
      ∧ (envSelFault.selectErr = some "select failed"
          ∨ (envSelFault.selectErr = none ∧ envSelFault.logSuccessErr = some "select failed")) :=
  per_record_errors_absorbed.1 envSelFault dbOne [] "select failed" (by decide)

/-! ### C6 -/

/-- C6 counterexample: for the error text "429 retry in 5s" the code returns a
suggested delay of 6 seconds — the parsed 5 plus one — not the parsed value 5
the claim describes. -/
theorem gemini_delay_counterexample :
    geminiSummarize (.err "429 retry in 5s") = (none, some 6)
      ∧ geminiSummarize (.err "429 retry in 5s") ≠ (none, some 5) := by
  have h : geminiSummarize (.err "429 retry in 5s") = (none, some 6) := by
    have hscan : scanRetry (lowerStr "429 retry in 5s").toList = some ['5'] := by decide
    have hpf : parseFloat ['5'] = some 5 := by
      simp only [parseFloat]
      rw [if_pos (by decide)]
      have e1 : List.takeWhile (fun x => decide (x ≠ '.')) ['5'] = ['5'] := by decide
      have e3 : List.drop (List.length ['5'] + 1) ['5'] = [] := by decide
      have e4 : '5'.toNat - 48 = 5 := by decide
      rw [e1, e3]
      norm_num [natOfDigits, e4]
    simp only [geminiSummarize]
    rw [if_pos (by decide), hscan]
    dsimp only
    rw [hpf]
    norm_num
  refine ⟨h, ?_⟩
  rw [h]
  intro hc
  have h2 : (6 : ℚ) = 5 := by simpa using congrArg Prod.snd hc
  norm_num at h2

/-- C6 amended: every provider response is classified into exactly one of
three outcomes — success gives `(stripped text, none)`; an error whose text
contains "429", or "quota" / "rate limit" case-insensitively, gives
`(none, some d)` where `d` is one more than the number parsed from the first
`retry in <n>s` pattern of the lowered text when that parse succeeds and the
fixed default 60 otherwise; any other error gives `(none, none)`. -/
theorem gemini_classification (resp : GeminiResp) :
    (∃ t, resp = .ok t ∧ geminiSummarize resp = (some (pyStrip t), none))
  ∨ (∃ m, resp = .err m
      ∧ (strContainsSub m "429" || strContainsSub (lowerStr m) "quota"
          || strContainsSub (lowerStr m) "rate limit") = true
      ∧ ((∃ ds q, scanRetry (lowerStr m).toList = some ds ∧ parseFloat ds = some q
            ∧ geminiSummarize resp = (none, some (q + 1)))
        ∨ (((scanRetry (lowerStr m).toList = none)
             ∨ (∃ ds, scanRetry (lowerStr m).toList = some ds ∧ parseFloat ds = none))
           ∧ geminiSummarize resp = (none, some 60))))
  ∨ (∃ m, resp = .err m
      ∧ (strContainsSub m "429" || strContainsSub (lowerStr m) "quota"
          || strContainsSub (lowerStr m) "rate limit") = false
      ∧ geminiSummarize resp = (none, none)) := by
  cases resp with
  | ok t => exact Or.inl ⟨t, rfl, rfl⟩
  | err m =>
    by_cases hind : (strContainsSub m "429" || strContainsSub (lowerStr m) "quota"
        || strContainsSub (lowerStr m) "rate limit") = true
    · refine Or.inr (Or.inl ⟨m, rfl, hind, ?_⟩)
      cases hscan : scanRetry (lowerStr m).toList with
      | none =>
        refine Or.inr ⟨Or.inl rfl, ?_⟩
        simp only [geminiSummarize]
        rw [if_pos hind, hscan]
      | some ds =>
        cases hpf : parseFloat ds with
        | none =>
          refine Or.inr ⟨Or.inr ⟨ds, rfl, hpf⟩, ?_⟩
          simp only [geminiSummarize]
          rw [if_pos hind, hscan]
          dsimp only
          rw [hpf]
        | some q =>
          refine Or.inl ⟨ds, q, rfl, hpf, ?_⟩
          simp only [geminiSummarize]
          rw [if_pos hind, hscan]
          dsimp only
          rw [hpf]
    · rw [Bool.not_eq_true] at hind
      exact Or.inr (Or.inr ⟨m, rfl, hind, by simp [geminiSummarize, hind]⟩)

/-! ### C5 infrastructure: the honest run as a pointwise table transformation -/

/-- Effect of the single-row `UPDATE` on one table row. -/
def upd1 (pid : Nat) (s : String) (p : Post) : Post :=
  if p.post_id = pid then { p with summary := some s } else p

theorem updateSummary_eq_map (db : List Post) (pid : Nat) (s : String) :
    updateSummary db pid s = db.map (upd1 pid s) := rfl

/-- Row transformations the job can perform: they keep `post_id`, `content`
and `title`, and never erase an existing summary. -/
def goodF (f : Post → Post) : Prop :=
  ∀ p : Post, (f p).post_id = p.post_id ∧ (f p).content = p.content ∧ (f p).title = p.title
    ∧ (p.summary.isSome = true → ((f p).summary).isSome = true)

theorem goodF_id : goodF id := fun _ => ⟨rfl, rfl, rfl, fun h => h⟩

theorem goodF_comp {f g : Post → Post} (hf : goodF f) (hg : goodF g) : goodF (g ∘ f) := by
  intro p
  obtain ⟨h1, h2, h3, h4⟩ := hf p
  obtain ⟨g1, g2, g3, g4⟩ := hg (f p)
  exact ⟨g1.trans h1, g2.trans h2, g3.trans h3, fun h => g4 (h4 h)⟩

theorem goodF_upd1 (pid : Nat) (s : String) : goodF (upd1 pid s) := by
  intro p
  unfold upd1
  split <;> simp

/-- In the honest environment with an always-succeeding provider, one
iteration always falls through to the next record and transforms the table
pointwise by a good function. -/
theorem honest_process_shape (g : Nat → GeminiResp) (hok : ∀ n, (g n).isOk = true)
    (idx : Nat) (r : Row) (st : LoopState) :
    ∃ st' f, processRecord (honestEnv g) idx r st = .nextRec st'
      ∧ st'.db = st.db.map f ∧ goodF f := by
  by_cases hb : pyBlank r.content = true
  · refine ⟨_, id, processRecord_blank (honestEnv g) idx r st hb, ?_, goodF_id⟩
    simp [honestEnv, applyExt]
  · rw [Bool.not_eq_true] at hb
    cases hg : g st.calls with
    | err m => exact absurd (hg ▸ hok st.calls) (by simp [GeminiResp.isOk])
    | ok t =>
    cases hrc : recheckSummary st.db r.post_id with
    | some o =>
      cases o with
      | some s =>
        refine ⟨_, id, processRecord_skip (honestEnv g) idx r st s hb rfl hrc, ?_, goodF_id⟩
        simp [honestEnv, applyExt]
      | none =>
        refine ⟨_, upd1 r.post_id (pyStrip t),
          processRecord_first_ok (honestEnv g) idx r st (pyStrip t) none hb rfl
            (Or.inr hrc) (by show geminiSummarize (g st.calls) = _; rw [hg]; rfl) rfl,
          ?_, goodF_upd1 _ _⟩
        simp [honestEnv, applyExt, updateSummary_eq_map]
    | none =>
      refine ⟨_, upd1 r.post_id (pyStrip t),
        processRecord_first_ok (honestEnv g) idx r st (pyStrip t) none hb rfl
          (Or.inl hrc) (by show geminiSummarize (g st.calls) = _; rw [hg]; rfl) rfl,
        ?_, goodF_upd1 _ _⟩
      simp [honestEnv, applyExt, updateSummary_eq_map]

/-- In the honest environment with an always-succeeding provider, the loop
never takes the early exit and transforms the table pointwise by a good
function. -/
theorem honest_loop_shape (g : Nat → GeminiResp) (hok : ∀ n, (g n).isOk = true) :
    ∀ (rows : List Row) (idx : Nat) (st : LoopState),
      ∃ st' F, runLoop (honestEnv g) rows idx st = (st', false)
        ∧ st'.db = st.db.map F ∧ goodF F := by
  intro rows
  induction rows with
  | nil =>
    intro idx st
    exact ⟨st, id, runLoop_nil _ idx st, by simp, goodF_id⟩
  | cons r rs ih =>
    intro idx st
    obtain ⟨st1, f, hpr, hdb1, hf⟩ := honest_process_shape g hok idx r st
    obtain ⟨st2, F, hloop, hdb2, hF⟩ := ih (idx + 1) st1
    refine ⟨st2, F ∘ f, ?_, ?_, goodF_comp hf hF⟩
    · rw [runLoop_cons_next _ _ _ _ _ _ hpr, hloop]
    · rw [hdb2, hdb1, List.map_map]

/-- Inversion of a successful re-check: some row with the queried id exists
and already carries a summary. -/
theorem recheckSummary_some_inv (db : List Post) (pid : Nat) (s : String)
    (h : recheckSummary db pid = some (some s)) :
    ∃ q ∈ db, q.post_id = pid ∧ q.summary = some s := by
  unfold recheckSummary at h
  rw [Option.map_eq_some'] at h
  obtain ⟨q, hfind, hsum⟩ := h
  refine ⟨q, List.mem_of_find?_eq_some hfind, ?_, hsum⟩
  have hpred := List.find?_some hfind
  simpa using hpred

/-- Coverage: when the table has no duplicate ids and some candidate row with
a non-blank content snapshot carries `p`'s id, the honest loop with an
always-succeeding provider leaves `p`'s table row with a summary present. -/
theorem honest_loop_covers (g : Nat → GeminiResp) (hok : ∀ n, (g n).isOk = true) :
    ∀ (rows : List Row) (idx : Nat) (st : LoopState) (p : Post),
      (st.db.map Post.post_id).Nodup → p ∈ st.db →
      (∃ r ∈ rows, r.post_id = p.post_id ∧ pyBlank r.content = false) →
      ∃ st' F, runLoop (honestEnv g) rows idx st = (st', false)
        ∧ st'.db = st.db.map F ∧ goodF F ∧ ((F p).summary).isSome = true := by
  intro rows
  induction rows with
  | nil =>
    intro idx st p _ _ hr
    rcases hr with ⟨r, hrmem, _⟩
    simp at hrmem
  | cons r0 rs ih =>
    intro idx st p hnd hp hr
    rcases hr with ⟨r, hrmem, hrid, hrblank⟩
    rcases List.mem_cons.mp hrmem with rfl | hrin
    · cases hg : g st.calls with
      | err m => exact absurd (hg ▸ hok st.calls) (by simp [GeminiResp.isOk])
      | ok t =>
        cases hrc : recheckSummary st.db r.post_id with
        | some o =>
          cases o with
          | some s =>
            obtain ⟨q, hqmem, hqid, hqsum⟩ := recheckSummary_some_inv st.db r.post_id s hrc
            have hqp : q = p :=
              List.inj_on_of_nodup_map hnd hqmem hp (by rw [hqid, hrid])
            have hpsum : p.summary.isSome = true := by
              rw [← hqp, hqsum]; rfl
            have hpr := processRecord_skip (honestEnv g) idx r st s hrblank rfl hrc
            obtain ⟨st2, F, hloop, hdb2, hF⟩ := honest_loop_shape g hok rs (idx + 1) st
            refine ⟨st2, F, ?_, hdb2, hF, (hF p).2.2.2 hpsum⟩
            rw [runLoop_cons_next _ _ _ _ _ _ hpr]
            exact hloop
          | none =>
            have hpr := processRecord_first_ok (honestEnv g) idx r st (pyStrip t) none
              hrblank rfl (Or.inr hrc)
              (by show geminiSummarize (g st.calls) = _; rw [hg]; rfl) rfl
            obtain ⟨st2, F, hloop, hdb2, hF⟩ := honest_loop_shape g hok rs (idx + 1)
              { st with db := updateSummary (applyExt st.db (((honestEnv g).recEnv idx).extWrites))
                                r.post_id (pyStrip t),
                        calls := st.calls + 1,
                        commits := st.commits + 1,
                        success_count := st.success_count + 1 }
            refine ⟨st2, F ∘ upd1 r.post_id (pyStrip t), ?_, ?_, goodF_comp (goodF_upd1 _ _) hF, ?_⟩
            · rw [runLoop_cons_next _ _ _ _ _ _ hpr]
              exact hloop
            · rw [hdb2]
              show (st.db.map (upd1 r.post_id (pyStrip t))).map F = _
              rw [List.map_map]
            · show ((F (upd1 r.post_id (pyStrip t) p)).summary).isSome = true
              have hup : (upd1 r.post_id (pyStrip t) p).summary.isSome = true := by
                unfold upd1
                rw [if_pos hrid.symm]
                rfl
              exact (hF _).2.2.2 hup
        | none =>
          have hpr := processRecord_first_ok (honestEnv g) idx r st (pyStrip t) none
            hrblank rfl (Or.inl hrc)
            (by show geminiSummarize (g st.calls) = _; rw [hg]; rfl) rfl
          obtain ⟨st2, F, hloop, hdb2, hF⟩ := honest_loop_shape g hok rs (idx + 1)
            { st with db := updateSummary (applyExt st.db (((honestEnv g).recEnv idx).extWrites))
                              r.post_id (pyStrip t),
                      calls := st.calls + 1,
                      commits := st.commits + 1,
                      success_count := st.success_count + 1 }
          refine ⟨st2, F ∘ upd1 r.post_id (pyStrip t), ?_, ?_, goodF_comp (goodF_upd1 _ _) hF, ?_⟩
          · rw [runLoop_cons_next _ _ _ _ _ _ hpr]
            exact hloop
          · rw [hdb2]
            show (st.db.map (upd1 r.post_id (pyStrip t))).map F = _
            rw [List.map_map]
          · show ((F (upd1 r.post_id (pyStrip t) p)).summary).isSome = true
            have hup : (upd1 r.post_id (pyStrip t) p).summary.isSome = true := by
              unfold upd1
              rw [if_pos hrid.symm]
              rfl
            exact (hF _).2.2.2 hup
    · obtain ⟨st1, f, hpr, hdb1, hf⟩ := honest_process_shape g hok idx r0 st
      have hmapid : st1.db.map Post.post_id = st.db.map Post.post_id := by
        rw [hdb1, List.map_map]
        exact List.map_congr_left (fun a _ => (hf a).1)
      have hnd1 : (st1.db.map Post.post_id).Nodup := by rw [hmapid]; exact hnd
      have hp1 : f p ∈ st1.db := by
        rw [hdb1]; exact List.mem_map_of_mem f hp
      have hex : ∃ r' ∈ rs, r'.post_id = (f p).post_id ∧ pyBlank r'.content = false :=
        ⟨r, hrin, hrid.trans (hf p).1.symm, hrblank⟩
      obtain ⟨st2, F, hloop, hdb2, hF, hFp⟩ := ih (idx + 1) st1 (f p) hnd1 hp1 hex
      refine ⟨st2, F ∘ f, ?_, ?_, goodF_comp hf hF, hFp⟩
      · rw [runLoop_cons_next _ _ _ _ _ _ hpr]
        exact hloop
      · rw [hdb2, hdb1, List.map_map]

theorem insertById_perm (p : Post) (l : List Post) : (insertById p l).Perm (p :: l) := by
  induction l with
  | nil => exact List.Perm.refl _
  | cons q qs ih =>
    unfold insertById
    split
    · exact List.Perm.refl _
    · exact (List.Perm.cons q ih).trans (List.Perm.swap p q qs)

theorem sortById_perm (l : List Post) : (sortById l).Perm l := by
  induction l with
  | nil => exact List.Perm.refl _
  | cons p ps ih =>
    show (insertById p (sortById ps)).Perm (p :: ps)
    exact (insertById_perm _ _).trans (List.Perm.cons p ih)

theorem mem_sortById {a : Post} {l : List Post} : a ∈ sortById l ↔ a ∈ l :=
  (sortById_perm l).mem_iff

/-- A row is selected iff it is the projection of an eligible post. -/
theorem mem_selectRows {r : Row} {db : List Post} :
    r ∈ selectRows db ↔ ∃ p, p ∈ db ∧ sqlEligible p = true ∧ r = toRow p := by
  unfold selectRows
  rw [List.mem_map]
  constructor
  · rintro ⟨p, hp, rfl⟩
    rw [mem_sortById, List.mem_filter] at hp
    exact ⟨p, hp.1, hp.2, rfl⟩
  · rintro ⟨p, hp, he, rfl⟩
    exact ⟨p, mem_sortById.mpr (List.mem_filter.mpr ⟨hp, he⟩), rfl⟩

/-- Empty selection short-circuit of `run()`. -/
theorem run_db_empty (env : RunEnv) (db : List Post) (logs0 : List BatchLog)
    (hsel : env.selectErr = none) (hlen : (selectRows db).length = 0) :
    run env db logs0 = ({ db := db, logs := logs0 }, .emptyRun) := by
  unfold run
  rw [hsel]
  simp only
  rw [if_pos hlen]

/-- On a non-empty selection without a selection fault, the final table is the
one produced by the loop, whatever the exit path. -/
theorem run_db_loop (env : RunEnv) (db : List Post) (logs0 : List BatchLog)
    (hsel : env.selectErr = none) (hlen : ¬(selectRows db).length = 0) :
    (run env db logs0).1.db = (runLoop env (selectRows db) 0 (initLoopState db)).1.db := by
  unfold run
  rw [hsel]
  simp only
  rw [if_neg hlen]
  split
  · rfl
  · split <;> rfl

/-- Candidates whose content snapshot is blank are all skipped: the loop is a
no-op on the whole state. -/
theorem honest_loop_blank_noop (g : Nat → GeminiResp) :
    ∀ (rows : List Row) (idx : Nat) (st : LoopState),
      (∀ r ∈ rows, pyBlank r.content = true) →
      runLoop (honestEnv g) rows idx st = (st, false) := by
  intro rows
  induction rows with
  | nil => intro idx st _; exact runLoop_nil _ _ _
  | cons r rs ih =>
    intro idx st h
    have hpr := processRecord_blank (honestEnv g) idx r st (h r (List.mem_cons_self r rs))
    rw [runLoop_cons_next _ _ _ _ _ _ hpr]
    exact ih (idx + 1) _ (fun r' hr' => h r' (List.mem_cons_of_mem _ hr'))

/-- After an honest run with an always-succeeding provider over a table with
distinct ids, every post that is still eligible has blank (whitespace-only)
content — it was selected but skipped by the Python-side double check. -/
theorem honest_run_settles (g : Nat → GeminiResp) (hok : ∀ n, (g n).isOk = true)
    (db0 : List Post) (logs0 : List BatchLog) (hnd : (db0.map Post.post_id).Nodup) :
    ∀ p1 ∈ (run (honestEnv g) db0 logs0).1.db,
      sqlEligible p1 = true → pyBlank p1.content = true := by
  intro p1 hp1 helig
  by_contra hbl
  rw [Bool.not_eq_true] at hbl
  by_cases hlen : (selectRows db0).length = 0
  · rw [run_db_empty (honestEnv g) db0 logs0 rfl hlen] at hp1
    have hrow : toRow p1 ∈ selectRows db0 := mem_selectRows.mpr ⟨p1, hp1, helig, rfl⟩
    rw [List.length_eq_zero] at hlen
    rw [hlen] at hrow
    simp at hrow
  · have hdb := run_db_loop (honestEnv g) db0 logs0 rfl hlen
    obtain ⟨st', F, hloop, hdbF, hF⟩ :=
      honest_loop_shape g hok (selectRows db0) 0 (initLoopState db0)
    have hdb1 : (run (honestEnv g) db0 logs0).1.db = db0.map F := by
      rw [hdb, hloop]
      exact hdbF
    rw [hdb1] at hp1
    obtain ⟨p0, hp0, rfl⟩ := List.mem_map.mp hp1
    obtain ⟨hid, hcontent, htitle, hmono⟩ := hF p0
    have hsum1 : (F p0).summary = none := by
      have h := helig
      unfold sqlEligible at h
      rw [Bool.and_eq_true] at h
      cases hfs : (F p0).summary with
      | none => rfl
      | some s => rw [hfs] at h; simp at h
    have hsum0 : p0.summary = none := by
      cases hps : p0.summary with
      | none => rfl
      | some s =>
        have h1 : p0.summary.isSome = true := by rw [hps]; rfl
        have h2 := hmono h1
        rw [hsum1] at h2
        simp at h2
    have helig0 : sqlEligible p0 = true := by
      unfold sqlEligible at helig ⊢
      rw [Bool.and_eq_true] at helig
      rw [hsum0]
      simp only [Option.isNone_none, Bool.true_and]
      rw [← hcontent]
      exact helig.2
    have hrow : toRow p0 ∈ selectRows db0 := mem_selectRows.mpr ⟨p0, hp0, helig0, rfl⟩
    have hblank0 : pyBlank (toRow p0).content = false := by
      show pyBlank p0.content = false
      rw [← hcontent]
      exact hbl
    obtain ⟨st2, F2, hloop2, hdbF2, hF2, hFp2⟩ :=
      honest_loop_covers g hok (selectRows db0) 0 (initLoopState db0) p0 hnd hp0
        ⟨toRow p0, hrow, rfl, hblank0⟩
    have hst : st' = st2 := by
      have h12 := hloop.symm.trans hloop2
      exact (Prod.mk.injEq _ _ _ _ ▸ h12).1
    have hmapeq : db0.map F = db0.map F2 := by
      have e1 : st'.db = db0.map F := hdbF
      have e2 : st2.db = db0.map F2 := hdbF2
      rw [← e1, ← e2, hst]
    have hFF2 : F p0 = F2 p0 := List.map_inj_left.mp hmapeq p0 hp0
    rw [hFF2] at hsum1
    rw [hsum1] at hFp2
    simp at hFp2

/-! ### C5 -/

/-- C5: summaries are write-once and the job is idempotent. A record whose
summary is non-null at selection time is never selected; if the per-record
re-check sees a now-existing summary, the iteration performs no provider
call, no write and no counter change; and over a table with distinct ids, a
second honest run against the store left by a first full successful pass
(always-succeeding provider, no faults, no concurrent writers) changes the
table in no way. -/
theorem write_once_idempotent :
    (∀ (env : RunEnv) (idx : Nat) (r : Row) (st0 : LoopState) (s : String),
        pyBlank r.content = false → (env.recEnv idx).recheckErr = none →
        recheckSummary (applyExt st0.db (env.recEnv idx).extWrites) r.post_id = some (some s) →
        processRecord env idx r st0 =
          .nextRec { st0 with db := applyExt st0.db (env.recEnv idx).extWrites })
  ∧ (∀ (p : Post) (db : List Post), p ∈ db → sqlEligible p = true → p.summary = none)
  ∧ (∀ (g : Nat → GeminiResp) (db0 : List Post) (logs0 logs1 : List BatchLog),
        (∀ n, (g n).isOk = true) → (db0.map Post.post_id).Nodup →
        (run (honestEnv g) ((run (honestEnv g) db0 logs0).1.db) logs1).1.db
          = (run (honestEnv g) db0 logs0).1.db) := by
  refine ⟨processRecord_skip, ?_, ?_⟩
  · intro p db _ helig
    unfold sqlEligible at helig
    rw [Bool.and_eq_true] at helig
    cases hps : p.summary with
    | none => rfl
    | some s => rw [hps] at helig; simp at helig
  · intro g db0 logs0 logs1 hok hnd
    have hsettle := honest_run_settles g hok db0 logs0 hnd
    have hallblank : ∀ r ∈ selectRows ((run (honestEnv g) db0 logs0).1.db),
        pyBlank r.content = true := by
      intro r hr
      obtain ⟨p1, hp1, helig, rfl⟩ := mem_selectRows.mp hr
      exact hsettle p1 hp1 helig
    by_cases hlen : (selectRows ((run (honestEnv g) db0 logs0).1.db)).length = 0
    · rw [run_db_empty (honestEnv g) _ logs1 rfl hlen]
    · rw [run_db_loop (honestEnv g) _ logs1 rfl hlen,
          honest_loop_blank_noop g _ 0 _ hallblank]
      rfl

theorem write_once_idempotent_witness :
    (run (honestEnv gAlwaysOk) ((run (honestEnv gAlwaysOk) dbThree []).1.db) []).1.db
      = (run (honestEnv gAlwaysOk) dbThree []).1.db :=
  write_once_idempotent.2.2 gAlwaysOk dbThree [] [] (fun _ => rfl) (by decide)
